import Mathlib

/-!
Verification development for the api.tommybradbury.co.uk infrastructure
programs.  The repository contains two declarative variants of the same
serverless HTTP API stack:

  variant A — src/index.ts
  variant B — src/unnamed/part_000

Each variant declares a fixed set of cloud resources (IAM role, Lambda
function with a published version, dev alias, invoke permission, HTTP API,
integration, routes, optional deployment, stage, custom domain, api
mapping).  We shallowly embed every declared resource as a
ResourceDescriptor: a kind, a logical name, desired properties whose
values are interpolations of literal text and references to outputs of
other resources, and an explicit dependsOn list (the pulumi `dependsOn`
option).  Values such as the AWS region and caller account id come from
provider configuration, not from a declared resource, and are embedded as
literals.
-/

/-- One piece of an interpolated property value: either literal text or a
reference to an output (such as arn, id, name, version, invokeArn) of the
resource with the given logical name.  References model both
pulumi.interpolate segments and direct output reads such as alias.arn. -/
inductive Piece where
  | lit : String → Piece
  | ref : (target : String) → (output : String) → Piece
deriving DecidableEq

/-- A declared resource: its kind, logical name, desired properties
(property name paired with its interpolated value), and the explicit
dependsOn list passed in the resource options. -/
structure Resource where
  kind : String
  logicalName : String
  props : List (String × List Piece)
  dependsOn : List String
deriving DecidableEq

/-- Reference targets occurring in one interpolated value. -/
def refTargetsOfValue : List Piece → List String
  | [] => []
  | Piece.lit _ :: v => refTargetsOfValue v
  | Piece.ref t _ :: v => t :: refTargetsOfValue v

/-- Reference targets occurring anywhere in a property list. -/
def refTargetsOfProps : List (String × List Piece) → List String
  | [] => []
  | p :: ps => refTargetsOfValue p.2 ++ refTargetsOfProps ps

/-- Look up a property value by property name. -/
def propValue (r : Resource) (k : String) : Option (List Piece) :=
  (r.props.find? (fun p => p.1 == k)).map (fun p => p.2)

/-- Kind of the resource with the given logical name in a declared set. -/
def kindOf (rs : List Resource) (n : String) : Option String :=
  (rs.find? (fun r => r.logicalName == n)).map (fun r => r.kind)

/-! ## Variant A — src/index.ts -/

/-- Embedding of `new aws.iam.Role("lambdaRole", ...)` in variant A. -/
def A_role : Resource :=
  { kind := "Role", logicalName := "lambdaRole",
    props := [("assumeRolePolicy", [Piece.lit "assumeRolePolicyForPrincipal:lambda.amazonaws.com"])],
    dependsOn := [] }

/-- Embedding of the RolePolicyAttachment in variant A; `role: role`
passes the role resource itself, embedded as a reference to it. -/
def A_policyAttachment : Resource :=
  { kind := "RolePolicyAttachment", logicalName := "lambdaPolicyAttachment",
    props := [("role", [Piece.ref "lambdaRole" "id"]),
              ("policyArn", [Piece.lit "AWSLambdaBasicExecutionRole"])],
    dependsOn := [] }

/-- Embedding of `new aws.apigatewayv2.Api("httpApi", ...)` in variant A. -/
def A_api : Resource :=
  { kind := "Api", logicalName := "httpApi",
    props := [("protocolType", [Piece.lit "HTTP"]),
              ("name", [Piece.lit "api.tommybradbury.co.uk-auth-service"])],
    dependsOn := [] }

/-- Embedding of the Function created inside createBrefFunction in
variant A (src/index.ts lines 24-36). -/
def brefFunctionA (name zipFileName description : String) : Resource :=
  { kind := "Function", logicalName := name,
    props := [("name", [Piece.lit name]),
              ("code", [Piece.lit ("lambda_code/" ++ zipFileName)]),
              ("runtime", [Piece.lit "provided.al2"]),
              ("architectures", [Piece.lit "x86_64"]),
              ("handler", [Piece.lit "index.php"]),
              ("role", [Piece.ref "lambdaRole" "arn"]),
              ("memorySize", [Piece.lit "256"]),
              ("timeout", [Piece.lit "10"]),
              ("layers", [Piece.lit "arn:aws:lambda:eu-west-2:534081306603:layer:php-84-fpm:34"]),
              ("publish", [Piece.lit "true"]),
              ("tags", [Piece.lit ("Name=" ++ name ++ ";Description=" ++ description)])],
    dependsOn := [] }

/-- Embedding of the Alias created inside createBrefFunction in variant A
(src/index.ts lines 38-42). -/
def brefAliasA (name : String) : Resource :=
  { kind := "Alias", logicalName := name ++ "DevAlias",
    props := [("functionName", [Piece.ref name "name"]),
              ("functionVersion", [Piece.ref name "version"]),
              ("name", [Piece.lit "dev"])],
    dependsOn := [name] }

/-- Embedding of the Permission created inside createBrefFunction in
variant A (src/index.ts lines 45-50): the function target is the alias
arn; the sourceArn interpolation references the api id. -/
def brefPermissionA (name : String) : Resource :=
  { kind := "Permission", logicalName := name ++ "ApiGatewayPermission",
    props := [("action", [Piece.lit "lambda:InvokeFunction"]),
              ("function", [Piece.ref (name ++ "DevAlias") "arn"]),
              ("principal", [Piece.lit "apigateway.amazonaws.com"]),
              ("sourceArn", [Piece.lit "arn:aws:execute-api:eu-west-2:140293477718:",
                             Piece.ref "httpApi" "id",
                             Piece.lit "/*/*"])],
    dependsOn := [name ++ "DevAlias", "httpApi"] }

/-- Embedding of createBrefFunction in variant A: declares the Function,
its dev Alias and the invoke Permission. -/
def createBrefFunctionA (name zipFileName description : String) : List Resource :=
  [brefFunctionA name zipFileName description, brefAliasA name, brefPermissionA name]

/-- Embedding of the Integration in variant A (src/index.ts lines 57-62):
integrationUri is the alias invokeArn. -/
def A_authIntegration : Resource :=
  { kind := "Integration", logicalName := "authIntegration",
    props := [("apiId", [Piece.ref "httpApi" "id"]),
              ("integrationType", [Piece.lit "AWS_PROXY"]),
              ("integrationUri", [Piece.ref "AuthServiceLambdaDevAlias" "invokeArn"]),
              ("payloadFormatVersion", [Piece.lit "2.0"])],
    dependsOn := [] }

/-- Embedding of the ANY /auth route in variant A. -/
def A_authANYRoute : Resource :=
  { kind := "Route", logicalName := "authANYRoute",
    props := [("apiId", [Piece.ref "httpApi" "id"]),
              ("routeKey", [Piece.lit "ANY /auth"]),
              ("target", [Piece.lit "integrations/", Piece.ref "authIntegration" "id"])],
    dependsOn := [] }

/-- Embedding of the ANY /auth/\x7bproxy+\x7d route in variant A. -/
def A_authANYProxyRoute : Resource :=
  { kind := "Route", logicalName := "authANYProxyRoute",
    props := [("apiId", [Piece.ref "httpApi" "id"]),
              ("routeKey", [Piece.lit "ANY /auth/\x7bproxy+\x7d"]),
              ("target", [Piece.lit "integrations/", Piece.ref "authIntegration" "id"])],
    dependsOn := [] }

/-- Embedding of the access-log LogGroup in variant A. -/
def A_logGroup : Resource :=
  { kind := "LogGroup", logicalName := "httpApiAccessLogs",
    props := [("name", [Piece.lit "/aws/http-api/auth-access"]),
              ("retentionInDays", [Piece.lit "14"])],
    dependsOn := [] }

/-- Embedding of the LogResourcePolicy in variant A; the policy document
references the log group arn. -/
def A_logPolicy : Resource :=
  { kind := "LogResourcePolicy", logicalName := "apiGwAccessLogsPolicy",
    props := [("policyName", [Piece.lit "ApiGatewayAccessLogs"]),
              ("policyDocument", [Piece.lit "AllowApiGatewayToWriteLogs:",
                                  Piece.ref "httpApiAccessLogs" "arn",
                                  Piece.lit ":*"])],
    dependsOn := [] }

/-- Embedding of the Stage in variant A: autoDeploy, access logs to the
log group, no deployment reference, dependsOn the log policy. -/
def A_stage : Resource :=
  { kind := "Stage", logicalName := "apiStage",
    props := [("apiId", [Piece.ref "httpApi" "id"]),
              ("name", [Piece.lit "$default"]),
              ("autoDeploy", [Piece.lit "true"]),
              ("accessLogDestinationArn", [Piece.ref "httpApiAccessLogs" "arn"]),
              ("accessLogFormat", [Piece.lit "requestId requestTime httpMethod path routeKey status protocol responseLength error"])],
    dependsOn := ["apiGwAccessLogsPolicy"] }

/-- Embedding of the custom DomainName in variant A. -/
def A_domain : Resource :=
  { kind := "DomainName", logicalName := "apiDomain",
    props := [("domainName", [Piece.lit "api.tommybradbury.co.uk"]),
              ("certificateArn", [Piece.lit "arn:aws:acm:eu-west-2:140293477718:certificate/dc46af13-b4c4-4759-bf96-5b5b04444b4f"]),
              ("endpointType", [Piece.lit "REGIONAL"]),
              ("securityPolicy", [Piece.lit "TLS_1_2"])],
    dependsOn := [] }

/-- Embedding of the ApiMapping in variant A: maps the domain to the
stage by stage name. -/
def A_apiMapping : Resource :=
  { kind := "ApiMapping", logicalName := "apiMapping",
    props := [("apiId", [Piece.ref "httpApi" "id"]),
              ("domainName", [Piece.ref "apiDomain" "domainName"]),
              ("stage", [Piece.ref "apiStage" "name"])],
    dependsOn := [] }

/-- The full declared resource set of variant A, in declaration order. -/
def variantA : List Resource :=
  [A_role, A_policyAttachment, A_api] ++
  createBrefFunctionA "AuthServiceLambda" "lambda-auth.zip" "Handles /auth/ route" ++
  [A_authIntegration, A_authANYRoute, A_authANYProxyRoute,
   A_logGroup, A_logPolicy, A_stage, A_domain, A_apiMapping]

/-! ## Variant B — src/unnamed/part_000 -/

/-- Embedding of the IAM Role in variant B (identical to variant A). -/
def B_role : Resource :=
  { kind := "Role", logicalName := "lambdaRole",
    props := [("assumeRolePolicy", [Piece.lit "assumeRolePolicyForPrincipal:lambda.amazonaws.com"])],
    dependsOn := [] }

/-- Embedding of the RolePolicyAttachment in variant B. -/
def B_policyAttachment : Resource :=
  { kind := "RolePolicyAttachment", logicalName := "lambdaPolicyAttachment",
    props := [("role", [Piece.ref "lambdaRole" "id"]),
              ("policyArn", [Piece.lit "AWSLambdaBasicExecutionRole"])],
    dependsOn := [] }

/-- Embedding of the Function created inside createBrefFunction in
variant B (src/unnamed/part_000 lines 32-43). -/
def brefFunctionB (name zipFileName description : String) : Resource :=
  { kind := "Function", logicalName := name,
    props := [("name", [Piece.lit name]),
              ("code", [Piece.lit ("lambda_code/" ++ zipFileName)]),
              ("runtime", [Piece.lit "provided.al2"]),
              ("handler", [Piece.lit "bref/entrypoint.php"]),
              ("role", [Piece.ref "lambdaRole" "arn"]),
              ("memorySize", [Piece.lit "256"]),
              ("timeout", [Piece.lit "10"]),
              ("layers", [Piece.lit "arn:aws:lambda:eu-west-2:534081306603:layer:php-84:34"]),
              ("tags", [Piece.lit ("Name=" ++ name ++ ";Description=" ++ description)]),
              ("publish", [Piece.lit "true"])],
    dependsOn := [] }

/-- Embedding of the dev Alias created inside createBrefFunction in
variant B (src/unnamed/part_000 lines 45-49). -/
def brefAliasB (name : String) : Resource :=
  { kind := "Alias", logicalName := name ++ "DevAlias",
    props := [("functionName", [Piece.ref name "name"]),
              ("functionVersion", [Piece.ref name "version"]),
              ("name", [Piece.lit "dev"])],
    dependsOn := [name] }

/-- Embedding of the Permission created inside createBrefFunction in
variant B (src/unnamed/part_000 lines 52-57): the function target is the
bare lambda function resource, and the sourceArn api segment is the
wildcard, referencing no declared resource. -/
def brefPermissionB (name : String) : Resource :=
  { kind := "Permission", logicalName := name ++ "ApiGatewayPermission",
    props := [("action", [Piece.lit "lambda:InvokeFunction"]),
              ("function", [Piece.ref name "id"]),
              ("principal", [Piece.lit "apigateway.amazonaws.com"]),
              ("sourceArn", [Piece.lit "arn:aws:execute-api:eu-west-2:140293477718:*/*/*/*"])],
    dependsOn := [name] }

/-- Embedding of createBrefFunction in variant B. -/
def createBrefFunctionB (name zipFileName description : String) : List Resource :=
  [brefFunctionB name zipFileName description, brefAliasB name, brefPermissionB name]

/-- Embedding of the Api in variant B. -/
def B_api : Resource :=
  { kind := "Api", logicalName := "httpApi",
    props := [("protocolType", [Piece.lit "HTTP"]),
              ("name", [Piece.lit "api.tommybradbury.co.uk"])],
    dependsOn := [] }

/-- Embedding of the Integration in variant B (src/unnamed/part_000 lines
82-88): integrationUri is the alias arn. -/
def B_authIntegration : Resource :=
  { kind := "Integration", logicalName := "authIntegration",
    props := [("apiId", [Piece.ref "httpApi" "id"]),
              ("integrationType", [Piece.lit "AWS_PROXY"]),
              ("integrationUri", [Piece.ref "AuthServiceLambdaDevAlias" "arn"]),
              ("integrationMethod", [Piece.lit "POST"]),
              ("payloadFormatVersion", [Piece.lit "2.0"])],
    dependsOn := [] }

/-- Embedding of the authGETRoute in variant B (routeKey GET /auth). -/
def B_authGETRoute : Resource :=
  { kind := "Route", logicalName := "authGETRoute",
    props := [("apiId", [Piece.ref "httpApi" "id"]),
              ("routeKey", [Piece.lit "GET /auth"]),
              ("target", [Piece.lit "integrations/", Piece.ref "authIntegration" "id"])],
    dependsOn := [] }

/-- Embedding of the authPOSTRoute in variant B: despite its logical
name, its routeKey is again GET /auth (src/unnamed/part_000 line 107). -/
def B_authPOSTRoute : Resource :=
  { kind := "Route", logicalName := "authPOSTRoute",
    props := [("apiId", [Piece.ref "httpApi" "id"]),
              ("routeKey", [Piece.lit "GET /auth"]),
              ("target", [Piece.lit "integrations/", Piece.ref "authIntegration" "id"])],
    dependsOn := [] }

/-- Embedding of the Deployment in variant B (src/unnamed/part_000 line
120), dependsOn both routes. -/
def B_deployment : Resource :=
  { kind := "Deployment", logicalName := "apiDeployment",
    props := [("apiId", [Piece.ref "httpApi" "id"])],
    dependsOn := ["authGETRoute", "authPOSTRoute"] }

/-- Embedding of the Stage in variant B: references the deployment id. -/
def B_stage : Resource :=
  { kind := "Stage", logicalName := "apiStage",
    props := [("apiId", [Piece.ref "httpApi" "id"]),
              ("name", [Piece.lit "$default"]),
              ("deploymentId", [Piece.ref "apiDeployment" "id"]),
              ("autoDeploy", [Piece.lit "true"]),
              ("throttlingBurstLimit", [Piece.lit "100"]),
              ("throttlingRateLimit", [Piece.lit "50"])],
    dependsOn := [] }

/-- Embedding of the custom DomainName in variant B. -/
def B_domain : Resource :=
  { kind := "DomainName", logicalName := "api.tommybradbury.co.uk",
    props := [("domainName", [Piece.lit "api.tommybradbury.co.uk"]),
              ("certificateArn", [Piece.lit "arn:aws:acm:eu-west-2:140293477718:certificate/dc46af13-b4c4-4759-bf96-5b5b04444b4f"]),
              ("endpointType", [Piece.lit "REGIONAL"]),
              ("securityPolicy", [Piece.lit "TLS_1_2"]),
              ("tags", [Piece.lit "Name=api.tommybradbury.co.uk"])],
    dependsOn := [] }

/-- Embedding of the ApiMapping in variant B: maps the domain to the
stage by stage id. -/
def B_apiMapping : Resource :=
  { kind := "ApiMapping", logicalName := "apiMapping",
    props := [("apiId", [Piece.ref "httpApi" "id"]),
              ("domainName", [Piece.ref "api.tommybradbury.co.uk" "domainName"]),
              ("stage", [Piece.ref "apiStage" "id"])],
    dependsOn := [] }

/-- The full declared resource set of variant B, in declaration order. -/
def variantB : List Resource :=
  [B_role, B_policyAttachment] ++
  createBrefFunctionB "AuthServiceLambda" "lambda-auth.zip" "Handles /auth/ route" ++
  [B_api, B_authIntegration, B_authGETRoute, B_authPOSTRoute,
   B_deployment, B_stage, B_domain, B_apiMapping]

/-! ## Dependency and reference analysis over a declared set -/

/-- All dependency targets of a resource: the explicit dependsOn list
together with every reference target occurring in its properties. -/
def depTargets (r : Resource) : List String :=
  r.dependsOn ++ refTargetsOfProps r.props

/-- Direct dependency targets of the resource with the given logical
name, with duplicates removed. -/
def directDeps (rs : List Resource) (n : String) : List String :=
  match rs.find? (fun r => r.logicalName == n) with
  | some r => (depTargets r).eraseDups
  | none => []

/-- Fuel-bounded transitive dependency: transDep rs fuel a b is true when
some dependency path of length at most fuel leads from a to b. -/
def transDep (rs : List Resource) : Nat → String → String → Bool
  | 0, _, _ => false
  | fuel + 1, a, b =>
      (directDeps rs a).any (fun c => c == b || transDep rs fuel c b)

/-- Helper for topoOrdered: checks each resource only depends on names
already seen. -/
def topoAux : List String → List Resource → Bool
  | _, [] => true
  | seen, r :: rest =>
      (depTargets r).all (fun t => seen.contains t) &&
      topoAux (r.logicalName :: seen) rest

/-- Declaration order is a valid topological apply order: every
dependency target of every resource is declared strictly earlier. -/
def topoOrdered (rs : List Resource) : Bool := topoAux [] rs

/-- Helper for refsDeclaredEarlier: like topoAux but only for reference
targets, ignoring the explicit dependsOn lists. -/
def refsEarlierAux : List String → List Resource → Bool
  | _, [] => true
  | seen, r :: rest =>
      (refTargetsOfProps r.props).all (fun t => seen.contains t) &&
      refsEarlierAux (r.logicalName :: seen) rest

/-- Every reference target is a resource declared strictly earlier in
the same set. -/
def refsDeclaredEarlier (rs : List Resource) : Bool := refsEarlierAux [] rs

/-- No resource transitively depends on itself (checked with fuel
covering every simple path in the set). -/
def selfDepFree (rs : List Resource) : Bool :=
  (rs.map (fun r => r.logicalName)).all (fun n => !(transDep rs 14 n n))

/-! ## Route-key validation (spec section 4.5 and section 7) -/

/-- Api target of a Route resource: the reference target of its apiId. -/
def routeApiTarget (r : Resource) : Option String :=
  match propValue r "apiId" with
  | some [Piece.ref t _] => some t
  | _ => none

/-- Literal routeKey of a Route resource, carrying the method and path. -/
def routeKeyLit (r : Resource) : Option String :=
  match propValue r "routeKey" with
  | some [Piece.lit s] => some s
  | _ => none

/-- Two distinct Route resources attached to the same Api declaring the
same routeKey, that is the same method and path pair. -/
def isDupRoutePair (a b : Resource) : Bool :=
  a.kind == "Route" && b.kind == "Route" && a.logicalName != b.logicalName &&
  (routeApiTarget a).isSome && routeApiTarget a == routeApiTarget b &&
  (routeKeyLit a).isSome && routeKeyLit a == routeKeyLit b

/-- A declared set contains a duplicate route key. -/
def hasDupRouteKey (rs : List Resource) : Bool :=
  rs.any (fun a => rs.any (fun b => isDupRoutePair a b))

/-- Modelled from the spec: the validation pass over the declared set
runs before scheduling and before any provider call; the repository does
not ship the reconciliation engine itself, only the declared sets, so
the pipeline of spec sections 4.1, 4.2 and 7 is modelled here.  buildPlan
rejects a duplicate route key with DuplicateRouteKeyError instead of
producing an apply order. -/
def buildPlan (rs : List Resource) : Except String (List String) :=
  if hasDupRouteKey rs then Except.error "DuplicateRouteKeyError"
  else Except.ok (rs.map (fun r => r.logicalName))

/-! ## Reference resolution and content hash (spec section 4.3) -/

/-- Resolve one piece against an environment assigning a value to every
(logicalName, output) pair. -/
def resolvePiece (env : String → String → String) : Piece → String
  | Piece.lit s => s
  | Piece.ref t o => env t o

/-- Resolve an interpolated value to a concrete string. -/
def resolveValue (env : String → String → String) : List Piece → String
  | [] => ""
  | pc :: v => resolvePiece env pc ++ resolveValue env v

/-- Resolve every property of a resource. -/
def resolveProps (env : String → String → String) (r : Resource) : List (String × String) :=
  r.props.map (fun p => (p.1, resolveValue env p.2))

/-- Modelled from the spec: the content hash is a deterministic digest of
the resolved desired properties, used by the reconciler to decide no-op
applies; the repository does not ship the reconciler, so the digest is
modelled as the resolved property list itself (a perfect digest). -/
def contentHash (env : String → String → String) (r : Resource) : List (String × String) :=
  resolveProps env r

/-! ## Alias and version router state (spec section 4.4) -/

/-- Modelled from the spec: the live pointer state of the Alias/Version
Router — published versions per function and alias bindings; the
repository declares the alias but the publish and cutover dynamics live
in the provider, so they are modelled from spec section 4.4. -/
structure RouterState where
  versions : List (String × Nat)
  bindings : List (String × String × Nat)
deriving DecidableEq

/-- Modelled from the spec: the next provider-assigned version number for
a function — monotonically increasing, append-only. -/
def nextVersion (vs : List (String × Nat)) (f : String) : Nat :=
  (vs.filterMap (fun p => if p.1 = f then some p.2 else none)).foldr max 0 + 1

/-- Modelled from the spec: publishAndCutover publishes a new immutable
version of the function and re-points the named alias binding to it,
leaving every previously published version in place. -/
def publishAndCutover (st : RouterState) (f a : String) : RouterState :=
  let n := nextVersion st.versions f
  { versions := (f, n) :: st.versions,
    bindings := (f, a, n) :: st.bindings.filter (fun b => !(b.1 == f && b.2.1 == a)) }

/-- Exactly one alias binding per (functionName, aliasName) pair. -/
def uniquePerPair (bs : List (String × String × Nat)) : Prop :=
  ∀ f a, (bs.filter (fun b => b.1 == f && b.2.1 == a)).length ≤ 1

/-- Every alias binding points at a version published from the same
function. -/
def bindingsValid (st : RouterState) : Prop :=
  ∀ b ∈ st.bindings, (b.1, b.2.2) ∈ st.versions

/-- The declared set has exactly one Alias resource, its functionName and
functionVersion both reference the same Function resource, and that
function is declared with publish true. -/
def aliasWellFormed (rs : List Resource) : Bool :=
  (rs.filter (fun r => r.kind == "Alias")).length == 1 &&
  (rs.filter (fun r => r.kind == "Alias")).all (fun a =>
    match propValue a "functionName", propValue a "functionVersion" with
    | some [Piece.ref tn _], some [Piece.ref tv "version"] =>
        tn == tv && kindOf rs tn == some "Function" &&
        (match rs.find? (fun r => r.logicalName == tn) with
         | some fn => propValue fn "publish" == some [Piece.lit "true"]
         | none => false)
    | _, _ => false)

/-! ## Logical names generated by createBrefFunction -/

/-- The three logical names createBrefFunction generates from its name
argument, in both variants. -/
def brefLogicalNames (name : String) : List String :=
  [name, name ++ "DevAlias", name ++ "ApiGatewayPermission"]

/-! ## Permission properties and source ARN matching -/

/-- Every Permission in the set has the api gateway service principal
and the lambda invoke action. -/
def permsPrincipalActionOk (rs : List Resource) : Bool :=
  rs.all (fun r => r.kind != "Permission" ||
    (propValue r "principal" == some [Piece.lit "apigateway.amazonaws.com"] &&
     propValue r "action" == some [Piece.lit "lambda:InvokeFunction"]))

/-- Fuel-bounded glob matching step function: a star matches any
character sequence, every other character matches itself. -/
def globMatchFuel : Nat → List Char → List Char → Bool
  | 0, _, _ => false
  | _ + 1, [], [] => true
  | _ + 1, [], _ :: _ => false
  | f + 1, p :: ps, [] => p == '*' && globMatchFuel f ps []
  | f + 1, p :: ps, c :: cs =>
      if p == '*' then globMatchFuel f ps (c :: cs) || globMatchFuel f (p :: ps) cs
      else p == c && globMatchFuel f ps cs

/-- Glob matching for ARN patterns; every recursive step of the matcher
shrinks the combined length, so this fuel is always sufficient. -/
def globMatch (ps cs : List Char) : Bool :=
  globMatchFuel (ps.length + cs.length + 1) ps cs

/-- An execution ARN of the api with the given provider-assigned id, for
a sample stage, method and path. -/
def execArn (apiId : String) : String :=
  "arn:aws:execute-api:eu-west-2:140293477718:" ++ apiId ++ "/dev/GET/login"

/-- Sample environment resolving the api id output, used to evaluate the
variant A sourceArn interpolation. -/
def envApi : String → String → String :=
  fun t o => if t == "httpApi" && o == "id" then "apiA111" else ""

/-! ## Dependency chain levels -/

/-- Later levels must depend, directly or transitively, on every member
of every earlier level. -/
def levelsChain (rs : List Resource) (fuel : Nat) : List (List String) → Bool
  | [] => true
  | lvl :: rest =>
      (rest.all fun l2 => l2.all fun m => lvl.all fun n => transDep rs fuel m n) &&
      levelsChain rs fuel rest

/-- The dependency chain declared by variant B: role, function, alias,
integration, routes, deployment, stage, mapping. -/
def chainLevelsB : List (List String) :=
  [["lambdaRole"], ["AuthServiceLambda"], ["AuthServiceLambdaDevAlias"],
   ["authIntegration"], ["authGETRoute", "authPOSTRoute"],
   ["apiDeployment"], ["apiStage"], ["apiMapping"]]

/-- The part of the chain declared by variant A: role, function, alias,
integration, routes; variant A has no Deployment and its Stage does not
depend on the routes. -/
def chainLevelsA : List (List String) :=
  [["lambdaRole"], ["AuthServiceLambda"], ["AuthServiceLambdaDevAlias"],
   ["authIntegration"], ["authANYRoute", "authANYProxyRoute"]]

/-! ## Sample environments for the content hash frame property -/

/-- Environment of the first run: every output has the same baseline
value. -/
def envW1 : String → String → String := fun _ _ => "out"

/-- Environment of the second run: only outputs of the function changed
(a new artifact and hence a new published version). -/
def envW2 : String → String → String :=
  fun t _ => if t = "AuthServiceLambda" then "changed" else "out"

/-- Every Integration in the set has an integrationUri that is a single
reference to an output of an Alias resource of the same set, and that
output is the alias arn or invoke arn, not a version output. -/
def integrationsTargetAlias (rs : List Resource) : Bool :=
  rs.all (fun r => r.kind != "Integration" ||
    (match propValue r "integrationUri" with
     | some [Piece.ref t o] =>
         kindOf rs t == some "Alias" && (o == "arn" || o == "invokeArn")
     | _ => false))

/-- The resource a Permission grants invoke rights on: the reference
target of its function property. -/
def permissionFunctionTarget (r : Resource) : Option String :=
  match propValue r "function" with
  | some [Piece.ref t _] => some t
  | _ => none

/-! ## Helper lemmas -/

/-- Appending the same string on the left is injective. -/
lemma strAppend_left_cancel {s u v : String} (h : s ++ u = s ++ v) : u = v := by
  have h0 := congrArg String.data h
  simp only [String.data_append] at h0
  have h1 := List.append_cancel_left h0
  cases u
  cases v
  cases h1
  rfl

/-- Appending the same string on the right is injective. -/
lemma strAppend_right_cancel {s t u : String} (h : s ++ u = t ++ u) : s = t := by
  have h0 := congrArg String.data h
  simp only [String.data_append] at h0
  have h1 := List.append_cancel_right h0
  cases s
  cases t
  cases h1
  rfl

/-- A string differs from itself extended by a nonempty suffix. -/
lemma str_ne_self_append {s t : String} (ht : t.data ≠ []) : s ≠ s ++ t := by
  intro h
  have h0 := congrArg String.data h
  simp only [String.data_append] at h0
  have h1 : s.data ++ [] = s.data ++ t.data := by simpa using h0
  exact ht (List.append_cancel_left h1).symm

/-- No string extended by DevAlias equals a string extended by
ApiGatewayPermission: the two suffixes end in different eight-character
tails. -/
lemma devAlias_ne_apiPerm (s t : String) :
    s ++ "DevAlias" ≠ t ++ "ApiGatewayPermission" := by
  intro h
  have h0 := congrArg String.data h
  simp only [String.data_append] at h0
  have hsplit : (['A', 'p', 'i', 'G', 'a', 't', 'e', 'w', 'a', 'y', 'P', 'e', 'r', 'm', 'i', 's', 's', 'i', 'o', 'n'] : List Char) =
      ['A', 'p', 'i', 'G', 'a', 't', 'e', 'w', 'a', 'y', 'P', 'e'] ++ ['r', 'm', 'i', 's', 's', 'i', 'o', 'n'] := by decide
  rw [hsplit, ← List.append_assoc] at h0
  have h8 := List.append_inj_right' h0 (by decide)
  exact absurd h8 (by decide)

/-- The six logical names generated by two createBrefFunction calls are
pairwise distinct as soon as the two name arguments differ and neither
equals the other extended by one of the two generated suffixes. -/
lemma brefNames_nodup {n1 n2 : String} (h12 : n1 ≠ n2)
    (hA1 : n2 ≠ n1 ++ "DevAlias") (hA2 : n1 ≠ n2 ++ "DevAlias")
    (hP1 : n2 ≠ n1 ++ "ApiGatewayPermission")
    (hP2 : n1 ≠ n2 ++ "ApiGatewayPermission") :
    (brefLogicalNames n1 ++ brefLogicalNames n2).Nodup := by
  have hDA1 : n1 ≠ n1 ++ "DevAlias" := str_ne_self_append (by decide)
  have hDA2 : n2 ≠ n2 ++ "DevAlias" := str_ne_self_append (by decide)
  have hGP1 : n1 ≠ n1 ++ "ApiGatewayPermission" := str_ne_self_append (by decide)
  have hGP2 : n2 ≠ n2 ++ "ApiGatewayPermission" := str_ne_self_append (by decide)
  have hDG1 : n1 ++ "DevAlias" ≠ n1 ++ "ApiGatewayPermission" :=
    fun h => absurd (strAppend_left_cancel h) (by decide)
  have hDG2 : n2 ++ "DevAlias" ≠ n2 ++ "ApiGatewayPermission" :=
    fun h => absurd (strAppend_left_cancel h) (by decide)
  have hDD : n1 ++ "DevAlias" ≠ n2 ++ "DevAlias" :=
    fun h => h12 (strAppend_right_cancel h)
  have hPP : n1 ++ "ApiGatewayPermission" ≠ n2 ++ "ApiGatewayPermission" :=
    fun h => h12 (strAppend_right_cancel h)
  have hDP : n1 ++ "DevAlias" ≠ n2 ++ "ApiGatewayPermission" := devAlias_ne_apiPerm n1 n2
  have hPD : n1 ++ "ApiGatewayPermission" ≠ n2 ++ "DevAlias" :=
    (devAlias_ne_apiPerm n2 n1).symm
  simp only [brefLogicalNames, List.cons_append, List.nil_append, List.nodup_cons,
    List.mem_cons, List.not_mem_nil, or_false, not_or, List.nodup_nil, and_true]
  exact ⟨⟨hDA1, hGP1, h12, hA2, hP2⟩,
         ⟨hDG1, Ne.symm hA1, hDD, hDP⟩,
         ⟨Ne.symm hP1, hPD, hPP⟩,
         ⟨hDA2, hGP2⟩,
         ⟨hDG2, not_false⟩⟩

/-- Resolution of one interpolated value only depends on the environment
at the reference targets occurring in it. -/
lemma resolveValue_congr (env1 env2 : String → String → String) (v : List Piece)
    (h : ∀ t ∈ refTargetsOfValue v, ∀ o, env1 t o = env2 t o) :
    resolveValue env1 v = resolveValue env2 v := by
  induction v with
  | nil => rfl
  | cons pc v ih =>
      cases pc with
      | lit s =>
          simp only [resolveValue, resolvePiece]
          rw [ih (fun t ht o => h t (by simpa [refTargetsOfValue] using ht) o)]
      | ref t o =>
          simp only [resolveValue, resolvePiece]
          rw [h t (by simp [refTargetsOfValue]) o,
              ih (fun t2 ht o2 => h t2 (by simp [refTargetsOfValue, ht]) o2)]

/-- Resolution of a property list only depends on the environment at the
reference targets occurring in it. -/
lemma resolvePropsList_congr (env1 env2 : String → String → String) :
    ∀ (ps : List (String × List Piece)),
      (∀ t ∈ refTargetsOfProps ps, ∀ o, env1 t o = env2 t o) →
      ps.map (fun p => (p.1, resolveValue env1 p.2)) =
        ps.map (fun p => (p.1, resolveValue env2 p.2)) := by
  intro ps
  induction ps with
  | nil => intro _; rfl
  | cons p ps ih =>
      intro h
      simp only [List.map_cons]
      rw [resolveValue_congr env1 env2 p.2
            (fun t ht o => h t (by simp [refTargetsOfProps, List.mem_append, ht]) o),
          ih (fun t ht o => h t (by simp [refTargetsOfProps, List.mem_append, ht]) o)]

/-- The content hash of a resource only depends on the environment at the
reference targets occurring in its properties. -/
lemma contentHash_congr (env1 env2 : String → String → String) (r : Resource)
    (h : ∀ t ∈ refTargetsOfProps r.props, ∀ o, env1 t o = env2 t o) :
    contentHash env1 r = contentHash env2 r :=
  resolvePropsList_congr env1 env2 r.props h

/-- Filtering with a predicate after filtering with its negation yields
the empty list. -/
lemma filter_not_filter_nil {α : Type} (p : α → Bool) (l : List α) :
    (l.filter (fun b => !(p b))).filter p = [] := by
  induction l with
  | nil => rfl
  | cons a l ih =>
      cases hpa : p a <;> simp [List.filter_cons, hpa, ih]

/-- Filtering a filtered list is never longer than filtering the
original list. -/
lemma length_filter_filter_le {α : Type} (p q : α → Bool) (l : List α) :
    ((l.filter q).filter p).length ≤ (l.filter p).length := by
  induction l with
  | nil => simp
  | cons a l ih =>
      cases hq : q a <;> cases hp : p a <;>
        simp [List.filter_cons, hq, hp, -List.filter_filter] <;> omega

/-! ## Claim theorems -/

/-- C1: if two Route resources of a declared set attach to the same Api
and declare an identical routeKey (the same method and path pair), the
validation pass rejects the set with DuplicateRouteKeyError instead of
producing an apply order; in particular variant B, which declares the
route key GET /auth twice on the same Api, fails validation. -/
theorem c1_duplicate_route_key_rejected :
    (∀ (rs : List Resource) (a b : Resource), a ∈ rs → b ∈ rs →
      isDupRoutePair a b = true →
      buildPlan rs = Except.error "DuplicateRouteKeyError") ∧
    isDupRoutePair B_authGETRoute B_authPOSTRoute = true ∧
    buildPlan variantB = Except.error "DuplicateRouteKeyError" := by
  refine ⟨?_, by decide, by rfl⟩
  intro rs a b ha hb hd
  have hdup : hasDupRouteKey rs = true :=
    List.any_eq_true.mpr ⟨a, ha, List.any_eq_true.mpr ⟨b, hb, hd⟩⟩
  simp [buildPlan, hdup]

/-- Witness for C1: the theorem applied at the concrete variant B set and
its two routes declaring GET /auth. -/
theorem c1_witness :
    B_authGETRoute ∈ variantB ∧ B_authPOSTRoute ∈ variantB ∧
    isDupRoutePair B_authGETRoute B_authPOSTRoute = true ∧
    buildPlan variantB = Except.error "DuplicateRouteKeyError" :=
  ⟨by decide, by decide, by decide,
   c1_duplicate_route_key_rejected.1 variantB B_authGETRoute B_authPOSTRoute
     (by decide) (by decide) (by decide)⟩

/-- C2: in both variants, every declared Integration has an
integrationUri that is a single reference to the Alias resource (its arn
or invoke arn), never a version output or a version-qualified function
identity. -/
theorem c2_integration_targets_alias :
    integrationsTargetAlias variantA = true ∧
    integrationsTargetAlias variantB = true := by decide

/-- C3: in variant B the invoke Permission created by createBrefFunction
grants on the bare Function resource, not on the Alias, contradicting the
claim; variant A complies by granting on the alias arn. -/
theorem c3_permission_targets_bare_function :
    permissionFunctionTarget (brefPermissionB "AuthServiceLambda") = some "AuthServiceLambda" ∧
    kindOf variantB "AuthServiceLambda" = some "Function" ∧
    kindOf variantB "AuthServiceLambda" ≠ some "Alias" ∧
    permissionFunctionTarget (brefPermissionA "AuthServiceLambda") = some "AuthServiceLambdaDevAlias" ∧
    kindOf variantA "AuthServiceLambdaDevAlias" = some "Alias" := by decide

/-- C5 counterexample: the Integration of variant A references the Api
resource in its properties, yet its explicit dependsOn set is empty, so
not every reference target is listed in dependsOn. -/
theorem c5_reference_without_dependson_edge :
    A_authIntegration ∈ variantA ∧
    "httpApi" ∈ refTargetsOfProps A_authIntegration.props ∧
    "httpApi" ∉ A_authIntegration.dependsOn := by decide

/-- C5 amended: in both variants every reference target is a resource
declared strictly earlier in the same set, so reference edges are
satisfied by declaration order rather than by explicit dependsOn
listings. -/
theorem c5_refs_declared_earlier :
    refsDeclaredEarlier variantA = true ∧
    refsDeclaredEarlier variantB = true := by decide

/-- C7 counterexample: variant A declares no Deployment resource at all,
and its Stage does not depend on any route, so the claimed chain with a
Deployment node between routes and stage does not hold in every
variant. -/
theorem c7_no_deployment_in_variantA :
    variantA.all (fun r => r.kind != "Deployment") = true ∧
    transDep variantA 13 "apiStage" "authANYRoute" = false := by decide

/-- C7 amended: variant B declares the chain role, function, alias,
integration, routes, deployment, stage, mapping, every later element
depending transitively on every earlier one; variant A declares the same
chain up to the routes and its mapping depends on the stage, but has no
Deployment and its stage is independent of the routes; in both variants
the alias references the published version output of the function, and
the permission is a side branch (off the alias in variant A, off the
function in variant B) that the integration does not depend on. -/
theorem c7_dependency_chain :
    levelsChain variantB 13 chainLevelsB = true ∧
    levelsChain variantA 13 chainLevelsA = true ∧
    transDep variantA 13 "apiMapping" "apiStage" = true ∧
    propValue (brefAliasA "AuthServiceLambda") "functionVersion" =
      some [Piece.ref "AuthServiceLambda" "version"] ∧
    propValue (brefAliasB "AuthServiceLambda") "functionVersion" =
      some [Piece.ref "AuthServiceLambda" "version"] ∧
    transDep variantA 13 "AuthServiceLambdaApiGatewayPermission" "AuthServiceLambdaDevAlias" = true ∧
    transDep variantB 13 "AuthServiceLambdaApiGatewayPermission" "AuthServiceLambda" = true ∧
    transDep variantB 13 "AuthServiceLambdaApiGatewayPermission" "AuthServiceLambdaDevAlias" = false ∧
    transDep variantA 13 "authIntegration" "AuthServiceLambdaApiGatewayPermission" = false ∧
    transDep variantB 13 "authIntegration" "AuthServiceLambdaApiGatewayPermission" = false := by decide

/-- C8: in both variants the dependency relation induced by dependsOn
lists and property references is acyclic: declaration order is a valid
topological apply order (every dependency target is declared earlier), and
no resource transitively depends on itself. -/
theorem c8_acyclic_topological_order :
    topoOrdered variantA = true ∧ topoOrdered variantB = true ∧
    selfDepFree variantA = true ∧ selfDepFree variantB = true := by decide

/-- C9 counterexample: the variant B Permission uses a wildcard api
segment in its sourceArn, which matches execution ARNs of two different
api ids, hence not only ARNs of the Api declared in the same program;
its sourceArn references no declared resource. -/
theorem c9_wildcard_source_arn :
    propValue (brefPermissionB "AuthServiceLambda") "sourceArn" =
      some [Piece.lit "arn:aws:execute-api:eu-west-2:140293477718:*/*/*/*"] ∧
    globMatch "arn:aws:execute-api:eu-west-2:140293477718:*/*/*/*".data (execArn "apiB222").data = true ∧
    globMatch "arn:aws:execute-api:eu-west-2:140293477718:*/*/*/*".data (execArn "zzz999").data = true ∧
    "apiB222" ≠ "zzz999" ∧
    refTargetsOfProps (brefPermissionB "AuthServiceLambda").props = ["AuthServiceLambda"] := by decide

/-- Fuel monotonicity of the glob matcher: a successful match stays
successful with more fuel. -/
lemma globMatchFuel_mono : ∀ (f g : Nat) (ps cs : List Char), f ≤ g →
    globMatchFuel f ps cs = true → globMatchFuel g ps cs = true := by
  intro f
  induction f with
  | zero =>
      intro g ps cs _ h
      exact absurd h (by simp [globMatchFuel])
  | succ f ih =>
      intro g ps cs hfg h
      obtain ⟨g, rfl⟩ : ∃ g2, g = g2 + 1 := ⟨g - 1, by omega⟩
      have hfg2 : f ≤ g := by omega
      cases ps with
      | nil =>
          cases cs with
          | nil => simp [globMatchFuel]
          | cons c cs => simp [globMatchFuel] at h
      | cons p ps =>
          cases cs with
          | nil =>
              simp only [globMatchFuel, Bool.and_eq_true] at h ⊢
              exact ⟨h.1, ih g ps [] hfg2 h.2⟩
          | cons c cs =>
              simp only [globMatchFuel] at h ⊢
              by_cases hp : (p == '*') = true
              · rw [if_pos hp] at h ⊢
                rw [Bool.or_eq_true] at h ⊢
                rcases h with h1 | h2
                · exact Or.inl (ih g ps (c :: cs) hfg2 h1)
                · exact Or.inr (ih g (p :: ps) cs hfg2 h2)
              · rw [if_neg hp] at h ⊢
                simp only [Bool.and_eq_true] at h ⊢
                exact ⟨h.1, ih g ps cs hfg2 h.2⟩

/-- A leading star absorbs any prefix of the input. -/
lemma globMatchFuel_star_absorb : ∀ (xs : List Char) (f : Nat) (ps cs : List Char),
    globMatchFuel f ('*' :: ps) cs = true →
    globMatchFuel (xs.length + f) ('*' :: ps) (xs ++ cs) = true := by
  intro xs
  induction xs with
  | nil =>
      intro f ps cs h
      simpa using h
  | cons x xs ih =>
      intro f ps cs h
      have h2 := ih f ps cs h
      have hlen : (x :: xs).length + f = (xs.length + f) + 1 := by
        simp [Nat.add_right_comm]
      rw [hlen, List.cons_append]
      simp only [globMatchFuel]
      rw [if_pos (by decide), Bool.or_eq_true]
      exact Or.inr h2

/-- A starless literal prefix of the pattern is forced verbatim onto any
matched input. -/
lemma globMatchFuel_lit_elim : ∀ (lit : List Char), '*' ∉ lit →
    ∀ (f : Nat) (ps cs : List Char),
      globMatchFuel f (lit ++ ps) cs = true → ∃ cs2, cs = lit ++ cs2 := by
  intro lit
  induction lit with
  | nil =>
      intro _ f ps cs _
      exact ⟨cs, rfl⟩
  | cons p lit ih =>
      intro hstar f ps cs h
      have hpne : p ≠ '*' := fun he => hstar (he ▸ List.mem_cons_self p lit)
      have hp : (p == '*') = false := by simpa using hpne
      cases f with
      | zero => simp [globMatchFuel] at h
      | succ f =>
          cases cs with
          | nil =>
              rw [List.cons_append] at h
              simp only [globMatchFuel, Bool.and_eq_true] at h
              exact absurd h.1 (by simp [hp])
          | cons c cs =>
              rw [List.cons_append] at h
              simp only [globMatchFuel] at h
              rw [if_neg (by simp [hp])] at h
              rw [Bool.and_eq_true] at h
              have h3 := h
              have hc : p = c := by simpa using h3.1
              obtain ⟨cs2, rfl⟩ :=
                ih (fun hm => hstar (List.mem_cons_of_mem _ hm)) f ps cs h3.2
              exact ⟨cs2, by rw [hc, List.cons_append]⟩

/-- A starless literal prefix shared by the pattern and the input can be
peeled off a match. -/
lemma globMatchFuel_lit_intro : ∀ (lit : List Char), '*' ∉ lit →
    ∀ (f : Nat) (ps cs : List Char),
      globMatchFuel f ps cs = true →
      globMatchFuel (lit.length + f) (lit ++ ps) (lit ++ cs) = true := by
  intro lit
  induction lit with
  | nil =>
      intro _ f ps cs h
      simpa using h
  | cons p lit ih =>
      intro hstar f ps cs h
      have hpne : p ≠ '*' := fun he => hstar (he ▸ List.mem_cons_self p lit)
      have hp : (p == '*') = false := by simpa using hpne
      have h2 := ih (fun hm => hstar (List.mem_cons_of_mem _ hm)) f ps cs h
      have hlen : (p :: lit).length + f = (lit.length + f) + 1 := by
        simp [Nat.add_right_comm]
      rw [hlen, List.cons_append, List.cons_append]
      simp only [globMatchFuel]
      rw [if_neg (by simp [hp]), Bool.and_eq_true]
      exact ⟨by simp, h2⟩

/-- Two slash-free segments followed by a slash and equal up to the rest
are equal: the segment before the first slash is unique. -/
lemma eq_of_append_slash : ∀ (u v x y : List Char), '/' ∉ u → '/' ∉ v →
    u ++ '/' :: x = v ++ '/' :: y → u = v := by
  intro u
  induction u with
  | nil =>
      intro v x y _ hv h
      cases v with
      | nil => rfl
      | cons b v =>
          simp only [List.nil_append, List.cons_append, List.cons.injEq] at h
          exact absurd (by rw [← h.1]; exact List.mem_cons_self '/' v) hv
  | cons a u ih =>
      intro v x y hu hv h
      cases v with
      | nil =>
          simp only [List.cons_append, List.nil_append, List.cons.injEq] at h
          exact absurd (by rw [h.1]; exact List.mem_cons_self '/' u) hu
      | cons b v =>
          simp only [List.cons_append, List.cons.injEq] at h
          rw [h.1, ih v x y (fun hm => hu (List.mem_cons_of_mem _ hm))
            (fun hm => hv (List.mem_cons_of_mem _ hm)) h.2]

/-- The variant A sourceArn, resolved against the declared Api id,
matches only execution ARNs of that api: any matched execution ARN whose
api segment is slash-free carries exactly the declared api id. -/
lemma sourceArnA_matches_only (apiId suffix : String)
    (hid : ('/' : Char) ∉ apiId.data)
    (h : globMatch "arn:aws:execute-api:eu-west-2:140293477718:apiA111/*/*".data
      ("arn:aws:execute-api:eu-west-2:140293477718:" ++ apiId ++ "/" ++ suffix).data = true) :
    apiId = "apiA111" := by
  unfold globMatch at h
  have hpat : "arn:aws:execute-api:eu-west-2:140293477718:apiA111/*/*".data =
      "arn:aws:execute-api:eu-west-2:140293477718:apiA111/".data ++ "*/*".data := by decide
  have hin : ("arn:aws:execute-api:eu-west-2:140293477718:" ++ apiId ++ "/" ++ suffix).data =
      "arn:aws:execute-api:eu-west-2:140293477718:".data ++ (apiId.data ++ '/' :: suffix.data) := by
    simp [String.data_append, List.append_assoc]
  rw [hpat, hin] at h
  obtain ⟨cs2, hcs⟩ := globMatchFuel_lit_elim _ (by decide) _ _ _ h
  have hsplit : "arn:aws:execute-api:eu-west-2:140293477718:apiA111/".data =
      "arn:aws:execute-api:eu-west-2:140293477718:".data ++ ("apiA111".data ++ ['/']) := by decide
  rw [hsplit, List.append_assoc] at hcs
  have h2 := List.append_cancel_left hcs
  rw [List.append_assoc, List.singleton_append] at h2
  have h3 : apiId.data = "apiA111".data :=
    eq_of_append_slash _ _ _ _ hid (by decide) h2
  exact String.ext h3

/-- The variant B wildcard sourceArn matches the execution ARN of every
api id whatsoever. -/
lemma sourceArnB_matches_any (apiId : String) :
    globMatch "arn:aws:execute-api:eu-west-2:140293477718:*/*/*/*".data
      (execArn apiId).data = true := by
  unfold globMatch execArn
  have hpat : "arn:aws:execute-api:eu-west-2:140293477718:*/*/*/*".data =
      "arn:aws:execute-api:eu-west-2:140293477718:".data ++ ('*' :: "/*/*/*".data) := by decide
  have hin : ("arn:aws:execute-api:eu-west-2:140293477718:" ++ apiId ++ "/dev/GET/login").data =
      "arn:aws:execute-api:eu-west-2:140293477718:".data ++ (apiId.data ++ "/dev/GET/login".data) := by
    simp [String.data_append, List.append_assoc]
  rw [hpat, hin]
  have h0 : globMatchFuel 22 ('*' :: "/*/*/*".data) "/dev/GET/login".data = true := by decide
  have h1 := globMatchFuel_star_absorb apiId.data 22 "/*/*/*".data "/dev/GET/login".data h0
  have h2 := globMatchFuel_lit_intro "arn:aws:execute-api:eu-west-2:140293477718:".data
    (by decide) _ _ _ h1
  refine globMatchFuel_mono _ _ _ _ ?_ h2
  have l1 : ("arn:aws:execute-api:eu-west-2:140293477718:".data).length = 43 := by decide
  have l2 : ("/*/*/*".data).length = 6 := by decide
  have l3 : ("/dev/GET/login".data).length = 14 := by decide
  simp only [List.length_append, List.length_cons, l1, l2, l3]
  omega

/-- C9 amended: every Permission in either variant has principal
apigateway.amazonaws.com and action lambda:InvokeFunction; the variant A
sourceArn interpolates the declared Api id and, once resolved, matches
only execution ARNs of that api — universally, every matched execution
ARN with a slash-free api segment carries the declared api id — while
the variant B sourceArn is the account-wide wildcard that matches the
execution ARN of every api id. -/
theorem c9_permission_properties :
    permsPrincipalActionOk variantA = true ∧
    permsPrincipalActionOk variantB = true ∧
    propValue (brefPermissionA "AuthServiceLambda") "sourceArn" =
      some [Piece.lit "arn:aws:execute-api:eu-west-2:140293477718:",
            Piece.ref "httpApi" "id", Piece.lit "/*/*"] ∧
    resolveValue envApi [Piece.lit "arn:aws:execute-api:eu-west-2:140293477718:",
      Piece.ref "httpApi" "id", Piece.lit "/*/*"] =
      "arn:aws:execute-api:eu-west-2:140293477718:apiA111/*/*" ∧
    (∀ apiId suffix : String, ('/' : Char) ∉ apiId.data →
      globMatch "arn:aws:execute-api:eu-west-2:140293477718:apiA111/*/*".data
        ("arn:aws:execute-api:eu-west-2:140293477718:" ++ apiId ++ "/" ++ suffix).data = true →
      apiId = "apiA111") ∧
    (∀ apiId : String,
      globMatch "arn:aws:execute-api:eu-west-2:140293477718:*/*/*/*".data
        (execArn apiId).data = true) ∧
    globMatch "arn:aws:execute-api:eu-west-2:140293477718:apiA111/*/*".data
      (execArn "apiA111").data = true ∧
    globMatch "arn:aws:execute-api:eu-west-2:140293477718:apiA111/*/*".data
      (execArn "zzz999").data = false ∧
    propValue (brefPermissionB "AuthServiceLambda") "sourceArn" =
      some [Piece.lit "arn:aws:execute-api:eu-west-2:140293477718:*/*/*/*"] :=
  ⟨by decide, by decide, by decide, by decide,
   sourceArnA_matches_only, sourceArnB_matches_any,
   by decide, by decide, by decide⟩

/-- Witness for C9: the universal conjuncts of the theorem applied at
concrete api ids, discharging the slash-free and match hypotheses. -/
theorem c9_witness :
    ('/' : Char) ∉ "apiA111".data ∧
    globMatch "arn:aws:execute-api:eu-west-2:140293477718:apiA111/*/*".data
      ("arn:aws:execute-api:eu-west-2:140293477718:" ++ "apiA111" ++ "/" ++ "dev/GET/login").data = true ∧
    ("apiA111" : String) = "apiA111" ∧
    globMatch "arn:aws:execute-api:eu-west-2:140293477718:*/*/*/*".data
      (execArn "zzz999").data = true :=
  ⟨by decide, by decide,
   c9_permission_properties.2.2.2.2.1 "apiA111" "dev/GET/login" (by decide) (by decide),
   c9_permission_properties.2.2.2.2.2.1 "zzz999"⟩

/-- C4: when two runs only differ in the outputs of the Function (a new
artifact and hence a new published version and code hash), every
Integration, Route, Deployment, Stage and ApiMapping of either variant
resolves to the same desired properties, so its content hash is unchanged
and the reconciler makes no provider call for it: none of these resources
references any output of the Function; they reach the compute layer only
through the stable Alias identifier. -/
theorem c4_downstream_hashes_stable :
    ∀ (env1 env2 : String → String → String),
      (∀ t o, t ≠ "AuthServiceLambda" → env1 t o = env2 t o) →
      ∀ r ∈ variantA ++ variantB,
        (r.kind = "Integration" ∨ r.kind = "Route" ∨ r.kind = "Deployment" ∨
         r.kind = "Stage" ∨ r.kind = "ApiMapping") →
        contentHash env1 r = contentHash env2 r := by
  intro env1 env2 hagree r hr hk
  have hall : ∀ r2 ∈ variantA ++ variantB,
      (r2.kind = "Integration" ∨ r2.kind = "Route" ∨ r2.kind = "Deployment" ∨
       r2.kind = "Stage" ∨ r2.kind = "ApiMapping") →
      "AuthServiceLambda" ∉ refTargetsOfProps r2.props := by decide
  refine contentHash_congr env1 env2 r ?_
  intro t ht o
  exact hagree t o (fun he => hall r hr hk (he ▸ ht))

/-- Witness for C4: the theorem applied to two concrete environments that
agree everywhere except on the Function outputs, at the variant A
Integration. -/
theorem c4_witness :
    (∀ t o, t ≠ "AuthServiceLambda" → envW1 t o = envW2 t o) ∧
    contentHash envW1 A_authIntegration = contentHash envW2 A_authIntegration := by
  have h : ∀ t o, t ≠ "AuthServiceLambda" → envW1 t o = envW2 t o := by
    intro t o ht
    simp [envW1, envW2, ht]
  exact ⟨h, c4_downstream_hashes_stable envW1 envW2 h A_authIntegration
    (by decide) (Or.inl rfl)⟩

/-- C6: each variant declares exactly one Alias, whose functionName and
functionVersion reference the same published Function; and in the
spec-modelled publish and cutover dynamics, re-pointing the alias leaves
exactly one binding for the pair, pointing at a version just published
from the same function, never removes a published version, preserves
uniqueness of bindings per pair and preserves validity of every binding
target — so the alias is the only mutable pointer from routing to
compute. -/
theorem c6_alias_binding_invariants :
    aliasWellFormed variantA = true ∧
    aliasWellFormed variantB = true ∧
    (∀ (st : RouterState) (f a : String),
      (publishAndCutover st f a).bindings.filter (fun b => b.1 == f && b.2.1 == a) =
        [(f, a, nextVersion st.versions f)]) ∧
    (∀ (st : RouterState) (f a : String),
      (f, nextVersion st.versions f) ∈ (publishAndCutover st f a).versions) ∧
    (∀ (st : RouterState) (f a : String) (v : String × Nat),
      v ∈ st.versions → v ∈ (publishAndCutover st f a).versions) ∧
    (∀ (st : RouterState) (f a : String),
      uniquePerPair st.bindings → uniquePerPair (publishAndCutover st f a).bindings) ∧
    (∀ (st : RouterState) (f a : String),
      bindingsValid st → bindingsValid (publishAndCutover st f a)) := by
  refine ⟨by decide, by decide, ?_, ?_, ?_, ?_, ?_⟩
  · intro st f a
    simp only [publishAndCutover, List.filter_cons]
    rw [if_pos (by simp)]
    rw [filter_not_filter_nil (fun b => b.1 == f && b.2.1 == a) st.bindings]
  · intro st f a
    simp [publishAndCutover]
  · intro st f a v hv
    simp only [publishAndCutover]
    exact List.mem_cons_of_mem _ hv
  · intro st f a hu f' a'
    simp only [publishAndCutover, List.filter_cons]
    by_cases hk : (((f, a, nextVersion st.versions f).1 == f' &&
        (f, a, nextVersion st.versions f).2.1 == a')) = true
    · have hf : f = f' ∧ a = a' := by
        simpa [Bool.and_eq_true, beq_iff_eq] using hk
      obtain ⟨rfl, rfl⟩ := hf
      rw [if_pos hk]
      rw [filter_not_filter_nil (fun b => b.1 == f && b.2.1 == a) st.bindings]
      simp
    · rw [if_neg hk]
      exact le_trans
        (length_filter_filter_le (fun b => b.1 == f' && b.2.1 == a')
          (fun b => !(b.1 == f && b.2.1 == a)) st.bindings)
        (hu f' a')
  · intro st f a hv b hb
    simp only [publishAndCutover] at hb ⊢
    rcases List.mem_cons.mp hb with h1 | h2
    · subst h1
      exact List.mem_cons_self _ _
    · exact List.mem_cons_of_mem _ (hv b (List.mem_of_mem_filter h2))

/-- Witness for C6: the parts of the theorem with hypotheses applied to a
concrete router state holding one published version and one binding. -/
theorem c6_witness :
    uniquePerPair (RouterState.mk [("AuthServiceLambda", 1)]
      [("AuthServiceLambda", "dev", 1)]).bindings ∧
    bindingsValid (RouterState.mk [("AuthServiceLambda", 1)]
      [("AuthServiceLambda", "dev", 1)]) ∧
    ("AuthServiceLambda", (1 : Nat)) ∈
      (publishAndCutover (RouterState.mk [("AuthServiceLambda", 1)]
        [("AuthServiceLambda", "dev", 1)]) "AuthServiceLambda" "dev").versions ∧
    uniquePerPair (publishAndCutover (RouterState.mk [("AuthServiceLambda", 1)]
      [("AuthServiceLambda", "dev", 1)]) "AuthServiceLambda" "dev").bindings ∧
    bindingsValid (publishAndCutover (RouterState.mk [("AuthServiceLambda", 1)]
      [("AuthServiceLambda", "dev", 1)]) "AuthServiceLambda" "dev") := by
  have hu : uniquePerPair (RouterState.mk [("AuthServiceLambda", 1)]
      [("AuthServiceLambda", "dev", 1)]).bindings := by
    intro f a
    exact le_trans (List.length_filter_le _ _) (by simp)
  have hv : bindingsValid (RouterState.mk [("AuthServiceLambda", 1)]
      [("AuthServiceLambda", "dev", 1)]) := by
    intro b hb
    simp only [List.mem_singleton] at hb
    subst hb
    decide
  exact ⟨hu, hv,
    c6_alias_binding_invariants.2.2.2.2.1
      (RouterState.mk [("AuthServiceLambda", 1)] [("AuthServiceLambda", "dev", 1)])
      "AuthServiceLambda" "dev" ("AuthServiceLambda", 1) (by decide),
    c6_alias_binding_invariants.2.2.2.2.2.1
      (RouterState.mk [("AuthServiceLambda", 1)] [("AuthServiceLambda", "dev", 1)])
      "AuthServiceLambda" "dev" hu,
    c6_alias_binding_invariants.2.2.2.2.2.2
      (RouterState.mk [("AuthServiceLambda", 1)] [("AuthServiceLambda", "dev", 1)])
      "AuthServiceLambda" "dev" hv⟩

/-- C10 counterexample: the name arguments A and ADevAlias are distinct,
yet the logical names generated by the two createBrefFunction invocations
collide — the second function name equals the first alias name — so the
generated names are not pairwise distinct for every pair of distinct name
arguments. -/
theorem c10_name_collision :
    ("A" : String) ≠ "ADevAlias" ∧
    ¬ ((createBrefFunctionA "A" "a.zip" "d" ++
        createBrefFunctionA "ADevAlias" "b.zip" "d").map
          (fun r => r.logicalName)).Nodup ∧
    ¬ ((createBrefFunctionB "A" "a.zip" "d" ++
        createBrefFunctionB "ADevAlias" "b.zip" "d").map
          (fun r => r.logicalName)).Nodup := by decide

/-- C10 amended: for two createBrefFunction invocations with distinct
name arguments, all six generated logical names (function, alias,
permission of each invocation) are pairwise distinct provided neither
name argument equals the other extended by DevAlias or by
ApiGatewayPermission — the only collisions possible, as the
counterexample shows. -/
theorem c10_names_distinct :
    ∀ (n1 n2 z1 d1 z2 d2 : String),
      n1 ≠ n2 →
      n2 ≠ n1 ++ "DevAlias" → n1 ≠ n2 ++ "DevAlias" →
      n2 ≠ n1 ++ "ApiGatewayPermission" → n1 ≠ n2 ++ "ApiGatewayPermission" →
      ((createBrefFunctionA n1 z1 d1 ++ createBrefFunctionA n2 z2 d2).map
        (fun r => r.logicalName)).Nodup ∧
      ((createBrefFunctionB n1 z1 d1 ++ createBrefFunctionB n2 z2 d2).map
        (fun r => r.logicalName)).Nodup := by
  intro n1 n2 z1 d1 z2 d2 h12 hA1 hA2 hP1 hP2
  have hnames := brefNames_nodup h12 hA1 hA2 hP1 hP2
  constructor
  · have he : (createBrefFunctionA n1 z1 d1 ++ createBrefFunctionA n2 z2 d2).map
        (fun r => r.logicalName) = brefLogicalNames n1 ++ brefLogicalNames n2 := rfl
    rw [he]
    exact hnames
  · have he : (createBrefFunctionB n1 z1 d1 ++ createBrefFunctionB n2 z2 d2).map
        (fun r => r.logicalName) = brefLogicalNames n1 ++ brefLogicalNames n2 := rfl
    rw [he]
    exact hnames

/-- Witness for C10: the theorem applied to the two names the source uses
(the second in the commented-out second invocation). -/
theorem c10_witness :
    ("AuthServiceLambda" : String) ≠ "otherServiceLambda" ∧
    ((createBrefFunctionA "AuthServiceLambda" "lambda-auth.zip" "Handles /auth/ route" ++
      createBrefFunctionA "otherServiceLambda" "other.zip" "Handles /other/ route").map
        (fun r => r.logicalName)).Nodup ∧
    ((createBrefFunctionB "AuthServiceLambda" "lambda-auth.zip" "Handles /auth/ route" ++
      createBrefFunctionB "otherServiceLambda" "other.zip" "Handles /other/ route").map
        (fun r => r.logicalName)).Nodup := by
  have h := c10_names_distinct "AuthServiceLambda" "otherServiceLambda"
    "lambda-auth.zip" "Handles /auth/ route" "other.zip" "Handles /other/ route"
    (by decide) (by decide) (by decide) (by decide) (by decide)
  exact ⟨by decide, h.1, h.2⟩
